import Mathlib

/-!
Verification of the `block_stats` pipeline of
`client/rpc/src/chain/chain_full.rs` (Substrate full-node chain RPC
backend): fetch a block and its parent, re-execute the block with proof
recording, compact the recorded witness against the parent header's state
root, compress the compacted bytes, and report size/count statistics.

The single source file orchestrates external collaborators (the client's
block store, the runtime API executor, the sp-trie proof compactor and the
zstd compressor).  Those collaborators are modelled here: the block store
and executor as fields of an explicit environment record, the compactor
and compressor both as environment fields (for propagation claims) and as
concrete executable models faithful to the spec's contracts (for the
claims about their behaviour).
-/

/-- Bytes are modelled as lists of naturals (each conceptually < 256). -/
abbrev Bytes := List Nat

/-- Block hashes are opaque comparable handles; modelled as naturals. -/
abbrev Hash := Nat

/-- The `usize as u64` cast from the source: reduction modulo 2^64. -/
def as_u64 (n : Nat) : Nat := n % 2 ^ 64

/-- Modelled from the spec: the SCALE compact length prefix of the external
codec (`parity-scale-codec`, not under src/): 1 byte below 2^6, 2 bytes
below 2^14, 4 bytes below 2^30, and big-integer mode (one marker byte plus
the value bytes) above. -/
def compactLenSize (n : Nat) : Nat :=
  if n < 64 then 1
  else if n < 16384 then 2
  else if n < 1073741824 then 4
  else 2 + Nat.log 2 n / 8

/-- Modelled from the spec: the byte rendering of a length prefix.  Only its
length (`compactLenSize`) matters to the statistics. -/
def encodeLen (n : Nat) : Bytes := List.replicate (compactLenSize n) (n % 256)

/-- Concatenation of length-prefixed items, as in the SCALE encoding of a
vector of byte blobs. -/
def encodeItems : List Bytes → Bytes
  | [] => []
  | b :: t => encodeLen b.length ++ b ++ encodeItems t

/-- Modelled from the spec: SCALE encoding of `Vec<Vec<u8>>` — a compact
count prefix followed by the length-prefixed items.  Both `StorageProof`
and `CompactProof` serialize this way. -/
def encodeVecBytes (l : List Bytes) : Bytes := encodeLen l.length ++ encodeItems l

/-- Modelled from the spec: block header as the source consumes it —
`parent_hash()` (identifier of the preceding block) and `state_root()`
(the stored root field, the digest the spec calls `pre_state_root`).
The concrete `Header` type lives outside src/ (sp-runtime). -/
structure Header where
  parent_hash : Hash
  state_root : Nat
deriving DecidableEq, Repr

/-- Modelled from the spec: a block is a header plus an ordered sequence of
opaque extrinsics. -/
structure Block where
  header : Header
  extrinsics : List Bytes
deriving DecidableEq, Repr

/-- Modelled from the spec: fixed 32-byte little-endian rendering of a
digest, used inside the header encoding. -/
def encodeHash (h : Nat) : Bytes := (List.range 32).map (fun i => h / 256 ^ i % 256)

/-- Header encoding: the two digest fields, fixed width. -/
def encodeHeader (hd : Header) : Bytes := encodeHash hd.parent_hash ++ encodeHash hd.state_root

/-- Canonical serialization of a block: header bytes then the extrinsics
vector. -/
def Block.encode (b : Block) : Bytes := encodeHeader b.header ++ encodeVecBytes b.extrinsics

/-- Model of `Encode::encoded_size` for blocks. -/
def Block.encoded_size (b : Block) : Nat := (Block.encode b).length

/-- Modelled from the spec: the recorded `ExecutionWitness`
(`StorageProof`): the collection of trie node blobs visited during
execution. -/
structure Witness where
  trie_nodes : List Bytes
deriving DecidableEq, Repr

/-- Model of `Encode::encoded_size` for a witness: size of its `Vec<Vec<u8>>`
serialization. -/
def Witness.encoded_size (w : Witness) : Nat := (encodeVecBytes w.trie_nodes).length

/-- Modelled from the spec: the compacted proof — the node set reduced
relative to a reference root. -/
structure CompactProof where
  encoded_nodes : List Bytes
deriving DecidableEq, Repr

/-- Model of `Encode::encode` for a compact proof. -/
def CompactProof.encode (c : CompactProof) : Bytes := encodeVecBytes c.encoded_nodes

/-- Result record of `block_stats`, from the rpc-api crate (outside src/);
fields in source order, each produced by a `usize as u64` cast. -/
structure BlockStats where
  witness_len : Nat
  witness_compact_len : Nat
  witness_compressed_len : Nat
  block_len : Nat
  block_num_extrinsics : Nat
deriving DecidableEq, Repr

/-- The RPC error type consumed by the source (`super::error::Error`):
`Client` wraps a boxed underlying diagnostic, `Other` carries a message.
Diagnostics are modelled as strings. -/
inductive RpcError where
  | Client (diag : String)
  | Other (msg : String)
deriving DecidableEq, Repr

/-- The chain module's `client_err`: wraps a blockchain-backend error
into `Error::Client`. -/
def client_err (e : String) : RpcError := RpcError.Client e

/-- Modelled from the spec: the external collaborators the source calls
through `self.client` and the runtime API.  `blocks` is
`Client::block` (a fallible lookup returning an optional block),
`best` the canonical head used by `unwrap_or_best`, `execute_block` the
proof-recording re-execution keyed by parent state and block,
`extract_proof` the witness recorded by that execution,
`into_compact_proof` the sp-trie compactor, and `compress` the zstd
`encode_all` entry point. -/
structure Env where
  blocks : Hash → Except String (Option Block)
  best : Hash
  execute_block : Hash → Block → Except String Unit
  extract_proof : Hash → Block → Option Witness
  into_compact_proof : Witness → Nat → Except String CompactProof
  compress : Bytes → Except String Bytes

/-- Resolution helper `unwrap_or_best`: use the given hash, else the canonical head. -/
def unwrap_or_best (env : Env) (hash : Option Hash) : Hash := hash.getD env.best

/-- The `block_stats` operation translated from
`client/rpc/src/chain/chain_full.rs` lines 86-134: fetch the block
(`Ok(None)` when absent), fetch its parent (`Ok(None)` when absent), take
sizes, execute with proof recording, extract the witness (distinct
`Other` error when none was recorded), compact against the parent
header's state root, compress, and assemble the record. -/
def block_stats (env : Env) (hash : Option Hash) : Except RpcError (Option BlockStats) :=
  match env.blocks (unwrap_or_best env hash) with
  | .error e => .error (client_err e)
  | .ok none => .ok none
  | .ok (some block) =>
    match env.blocks block.header.parent_hash with
    | .error e => .error (client_err e)
    | .ok none => .ok none
    | .ok (some parent_block) =>
      let block_len := as_u64 block.encoded_size
      let block_num_extrinsics := as_u64 block.extrinsics.length
      let pre_root := parent_block.header.state_root
      let parent_hash := block.header.parent_hash
      match env.execute_block parent_hash block with
      | .error err => .error (RpcError.Client err)
      | .ok () =>
        match env.extract_proof parent_hash block with
        | none => .error (RpcError.Other "No Proof was recorded")
        | some witness =>
          let witness_len := as_u64 witness.encoded_size
          match env.into_compact_proof witness pre_root with
          | .error err => .error (RpcError.Client err)
          | .ok compact =>
            let witness_compact := CompactProof.encode compact
            match env.compress witness_compact with
            | .error err => .error (RpcError.Client err)
            | .ok witness_compressed =>
              .ok (some
                { witness_len
                  witness_compact_len := as_u64 witness_compact.length
                  witness_compressed_len := as_u64 witness_compressed.length
                  block_len
                  block_num_extrinsics })

/-- Modelled from the spec: the trie-node digest of the external hasher
(`HasherOf<Block>`, outside src/); any concrete function serves the model. -/
def hashNode (b : Bytes) : Nat := b.foldl (fun a x => a * 257 + x % 256 + 1) 7

/-- Modelled from the spec: `StorageProof::into_compact_proof` of sp-trie
(outside src/).  Per §4.2 it deterministically reduces the witness to the
minimal node set verifiable against the reference root and fails when the
witness is inconsistent with that root; modelled as: succeed with the
duplicate-free node set when some node hashes to the root, fail
otherwise. -/
def spec_compact (w : Witness) (root : Nat) : Except String CompactProof :=
  if w.trie_nodes.any (fun n => hashNode n == root) then
    .ok ⟨w.trie_nodes.dedup⟩
  else
    .error "witness inconsistent with reference root"

/-- Run-length pairs (count, byte) of a byte list. -/
def rlePairs : List Nat → List (Nat × Nat)
  | [] => []
  | a :: t =>
    match rlePairs t with
    | [] => [(1, a)]
    | (k, b) :: r => if a = b then (k + 1, b) :: r else (1, a) :: (k, b) :: r

/-- Serialize run-length pairs as alternating count and byte. -/
def flattenPairs : List (Nat × Nat) → List Nat
  | [] => []
  | (k, b) :: t => k :: b :: flattenPairs t

/-- Parse alternating count/byte back into pairs. -/
def readPairs : List Nat → List (Nat × Nat)
  | k :: b :: t => (k, b) :: readPairs t
  | _ => []

/-- Expand run-length pairs back into the byte list. -/
def expandPairs : List (Nat × Nat) → List Nat
  | [] => []
  | (k, b) :: t => List.replicate k b ++ expandPairs t

/-- Modelled from the spec: the ByteCompressor's `compress`
(`zstd::stream::encode_all`, outside src/), as a concrete stateless coder
satisfying the §4.3 contract. -/
def spec_compress (b : Bytes) : Except String Bytes := .ok (flattenPairs (rlePairs b))

/-- Modelled from the spec: the ByteCompressor's `decompress`
(`zstd::stream::decode_all`, outside src/), inverse of `spec_compress`. -/
def spec_decompress (b : Bytes) : Except String Bytes := .ok (expandPairs (readPairs b))

lemma readPairs_flattenPairs (ps : List (Nat × Nat)) : readPairs (flattenPairs ps) = ps := by
  induction ps with
  | nil => rfl
  | cons p t ih => cases p with | mk k b => simp [flattenPairs, readPairs, ih]

lemma expandPairs_rlePairs (l : List Nat) : expandPairs (rlePairs l) = l := by
  induction l with
  | nil => rfl
  | cons a t ih =>
    rw [rlePairs]
    cases hr : rlePairs t with
    | nil =>
      rw [hr] at ih
      simp [expandPairs] at ih
      simp [expandPairs, ih]
    | cons p r =>
      cases p with
      | mk k b =>
        rw [hr] at ih
        simp [expandPairs] at ih
        by_cases hab : a = b
        · subst hab
          simp [expandPairs, List.replicate_succ]
          exact ih
        · simp [hab, expandPairs]
          exact ih

lemma log2_ge_30 (n : Nat) (h : 1073741824 ≤ n) : 30 ≤ Nat.log 2 n := by
  have h2 : (2 : Nat) ^ 30 ≤ n := by norm_num; omega
  exact (Nat.pow_le_iff_le_log (by norm_num) (by omega)).mp h2

lemma compactLenSize_mono {m n : Nat} (h : m ≤ n) : compactLenSize m ≤ compactLenSize n := by
  have hlog : Nat.log 2 m ≤ Nat.log 2 n := Nat.log_mono_right h
  unfold compactLenSize
  split_ifs <;> first
    | omega
    | (have h30 := log2_ge_30 n (by omega); omega)

lemma encodeItems_length_le {l₁ l₂ : List Bytes} (h : l₁.Sublist l₂) :
    (encodeItems l₁).length ≤ (encodeItems l₂).length := by
  induction h with
  | slnil => exact Nat.le_refl 0
  | cons a h ih => simp only [encodeItems, List.length_append]; omega
  | cons₂ a h ih => simp only [encodeItems, List.length_append]; omega

lemma encodeVecBytes_length_le {l₁ l₂ : List Bytes} (h : l₁.Sublist l₂) :
    (encodeVecBytes l₁).length ≤ (encodeVecBytes l₂).length := by
  have h1 := compactLenSize_mono h.length_le
  have h2 := encodeItems_length_le h
  simp only [encodeVecBytes, encodeLen, List.length_append, List.length_replicate]
  omega

lemma spec_compact_le {w : Witness} {root : Nat} {c : CompactProof}
    (h : spec_compact w root = .ok c) :
    (CompactProof.encode c).length ≤ w.encoded_size := by
  unfold spec_compact at h
  split at h
  · cases h
    exact encodeVecBytes_length_le (List.dedup_sublist w.trie_nodes)
  · cases h

lemma block_stats_block_missing {env : Env} {hash : Option Hash}
    (h : env.blocks (unwrap_or_best env hash) = .ok none) :
    block_stats env hash = .ok none := by
  simp [block_stats, h]

lemma block_stats_parent_missing {env : Env} {hash : Option Hash} {b : Block}
    (h1 : env.blocks (unwrap_or_best env hash) = .ok (some b))
    (h2 : env.blocks b.header.parent_hash = .ok none) :
    block_stats env hash = .ok none := by
  simp [block_stats, h1, h2]

lemma block_stats_success_eq {env : Env} {hash : Option Hash} {b p : Block} {w : Witness}
    (hb : env.blocks (unwrap_or_best env hash) = .ok (some b))
    (hp : env.blocks b.header.parent_hash = .ok (some p))
    (hx : env.execute_block b.header.parent_hash b = .ok ())
    (hw : env.extract_proof b.header.parent_hash b = some w) :
    block_stats env hash =
      match env.into_compact_proof w p.header.state_root with
      | .error err => .error (RpcError.Client err)
      | .ok compact =>
        match env.compress (CompactProof.encode compact) with
        | .error err => .error (RpcError.Client err)
        | .ok z =>
          .ok (some
            { witness_len := as_u64 w.encoded_size
              witness_compact_len := as_u64 (CompactProof.encode compact).length
              witness_compressed_len := as_u64 z.length
              block_len := as_u64 b.encoded_size
              block_num_extrinsics := as_u64 b.extrinsics.length }) := by
  simp [block_stats, hb, hp, hx, hw]

lemma block_stats_success_shape {env : Env} {hash : Option Hash} {b p : Block} {s : BlockStats}
    (hb : env.blocks (unwrap_or_best env hash) = .ok (some b))
    (hp : env.blocks b.header.parent_hash = .ok (some p))
    (hs : block_stats env hash = .ok (some s)) :
    ∃ w c z, env.extract_proof b.header.parent_hash b = some w ∧
      env.into_compact_proof w p.header.state_root = .ok c ∧
      env.compress (CompactProof.encode c) = .ok z ∧
      s = { witness_len := as_u64 w.encoded_size
            witness_compact_len := as_u64 (CompactProof.encode c).length
            witness_compressed_len := as_u64 z.length
            block_len := as_u64 b.encoded_size
            block_num_extrinsics := as_u64 b.extrinsics.length } := by
  unfold block_stats at hs
  simp only [hb, hp] at hs
  cases hx : env.execute_block b.header.parent_hash b with
  | error e => simp only [hx] at hs; simp at hs
  | ok u =>
    cases u
    simp only [hx] at hs
    cases hw : env.extract_proof b.header.parent_hash b with
    | none => simp only [hw] at hs; simp at hs
    | some w =>
      simp only [hw] at hs
      cases hc : env.into_compact_proof w p.header.state_root with
      | error e => simp only [hc] at hs; simp at hs
      | ok c =>
        simp only [hc] at hs
        cases hz : env.compress (CompactProof.encode c) with
        | error e => simp only [hz] at hs; simp at hs
        | ok z =>
          simp only [hz] at hs
          simp at hs
          exact ⟨w, c, z, rfl, hc, hz, hs.symm⟩

lemma block_stats_ok_none_iff (env : Env) (hash : Option Hash) :
    block_stats env hash = .ok none ↔
      (env.blocks (unwrap_or_best env hash) = .ok none ∨
        ∃ b, env.blocks (unwrap_or_best env hash) = .ok (some b) ∧
          env.blocks b.header.parent_hash = .ok none) := by
  constructor
  · intro h0
    unfold block_stats at h0
    cases e1 : env.blocks (unwrap_or_best env hash) with
    | error e => simp only [e1] at h0; simp at h0
    | ok ob =>
      cases ob with
      | none => exact Or.inl rfl
      | some b =>
        simp only [e1] at h0
        cases e2 : env.blocks b.header.parent_hash with
        | error e => simp only [e2] at h0; simp at h0
        | ok pb =>
          cases pb with
          | none => exact Or.inr ⟨b, rfl, e2⟩
          | some p =>
            simp only [e2] at h0
            cases e3 : env.execute_block b.header.parent_hash b with
            | error e => simp only [e3] at h0; simp at h0
            | ok u =>
              cases u
              simp only [e3] at h0
              cases e4 : env.extract_proof b.header.parent_hash b with
              | none => simp only [e4] at h0; simp at h0
              | some w =>
                simp only [e4] at h0
                cases e5 : env.into_compact_proof w p.header.state_root with
                | error e => simp only [e5] at h0; simp at h0
                | ok c =>
                  simp only [e5] at h0
                  cases e6 : env.compress (CompactProof.encode c) with
                  | error e => simp only [e6] at h0; simp at h0
                  | ok z => simp only [e6] at h0; simp at h0
  · intro h0
    rcases h0 with h0 | ⟨b, h1, h2⟩
    · exact block_stats_block_missing h0
    · exact block_stats_parent_missing h1 h2

/-- A concrete trie node used by the test ledger. -/
def node0 : Bytes := [1, 2, 3]

/-- A concrete witness with a duplicated node, so compaction shrinks it. -/
def w0 : Witness := ⟨[node0, node0, [4]]⟩

/-- Reference root matching `node0`, so the model compactor succeeds. -/
def root0 : Nat := hashNode node0

/-- Concrete child block: parent hash 100, three extrinsics. -/
def b1 : Block := ⟨⟨100, 555⟩, [[7], [8], [9]]⟩

/-- Concrete parent block stored at hash 100; its header root is `root0`. -/
def p1 : Block := ⟨⟨99, root0⟩, []⟩

/-- Concrete environment: a two-block ledger (hashes 101 and 100), an
executor that always succeeds recording `w0`, the model compactor and the
model compressor. -/
def env0 : Env :=
  { blocks := fun h =>
      if h = 101 then .ok (some b1) else if h = 100 then .ok (some p1) else .ok none
    best := 101
    execute_block := fun _ _ => .ok ()
    extract_proof := fun _ _ => some w0
    into_compact_proof := spec_compact
    compress := spec_compress }

/-- The statistics record `block_stats env0 (some 101)` evaluates to. -/
def stats0 : BlockStats := ⟨11, 7, 14, 71, 3⟩

/-- The compact proof the model compactor yields for `w0` at `root0`. -/
def c0 : CompactProof := ⟨[[1, 2, 3], [4]]⟩

/-- The model compressor's output on `c0`'s encoding. -/
def z0 : Bytes := flattenPairs (rlePairs (CompactProof.encode c0))

/-- Environment whose executor succeeds but records no proof. -/
def env_noproof : Env := { env0 with extract_proof := fun _ _ => none }

/-- Environment whose compressor always fails. -/
def env_zfail : Env := { env0 with compress := fun _ => .error "zstd failure" }

/-- Environment sharing `env0`'s ledger but with a failing pipeline. -/
def env_alt : Env :=
  { env0 with
    execute_block := fun _ _ => .error "unreachable"
    extract_proof := fun _ _ => none
    into_compact_proof := fun _ _ => .error "unreachable"
    compress := fun _ => .error "unreachable" }

/-- C1: on the path that reaches compaction, `block_stats` passes the proof
compactor the reference root `parent_block.header.state_root` — the root
field stored in the parent's own header (the spec's `pre_state_root`),
not any freshly computed post-execution root: the remainder of the
computation is exactly the compactor applied at that root. -/
theorem c1_compaction_root_is_parent_header_root (env : Env) (hash : Option Hash)
    (b p : Block) (w : Witness)
    (hb : env.blocks (unwrap_or_best env hash) = .ok (some b))
    (hp : env.blocks b.header.parent_hash = .ok (some p))
    (hx : env.execute_block b.header.parent_hash b = .ok ())
    (hw : env.extract_proof b.header.parent_hash b = some w) :
    block_stats env hash =
      match env.into_compact_proof w p.header.state_root with
      | .error err => .error (RpcError.Client err)
      | .ok compact =>
        match env.compress (CompactProof.encode compact) with
        | .error err => .error (RpcError.Client err)
        | .ok z =>
          .ok (some
            { witness_len := as_u64 w.encoded_size
              witness_compact_len := as_u64 (CompactProof.encode compact).length
              witness_compressed_len := as_u64 z.length
              block_len := as_u64 b.encoded_size
              block_num_extrinsics := as_u64 b.extrinsics.length }) :=
  block_stats_success_eq hb hp hx hw

/-- Witness for C1 at the concrete environment. -/
theorem c1_witness :
    block_stats env0 (some 101) =
      match env0.into_compact_proof w0 p1.header.state_root with
      | .error err => .error (RpcError.Client err)
      | .ok compact =>
        match env0.compress (CompactProof.encode compact) with
        | .error err => .error (RpcError.Client err)
        | .ok z =>
          .ok (some
            { witness_len := as_u64 w0.encoded_size
              witness_compact_len := as_u64 (CompactProof.encode compact).length
              witness_compressed_len := as_u64 z.length
              block_len := as_u64 b1.encoded_size
              block_num_extrinsics := as_u64 b1.extrinsics.length }) :=
  c1_compaction_root_is_parent_header_root env0 (some 101) b1 p1 w0 rfl rfl rfl rfl

/-- C2: `block_stats` returns `Ok(None)` exactly when the provider has no
block for the resolved identifier, or has the block but none for its
parent; both are the non-error `None` outcome. -/
theorem c2_ok_none_iff_absent (env : Env) (hash : Option Hash) :
    block_stats env hash = .ok none ↔
      (env.blocks (unwrap_or_best env hash) = .ok none ∨
        ∃ b, env.blocks (unwrap_or_best env hash) = .ok (some b) ∧
          env.blocks b.header.parent_hash = .ok none) :=
  block_stats_ok_none_iff env hash

/-- C3: a successful execution with no recorded witness yields the distinct
internal error, never `Some` and never `None`. -/
theorem c3_no_proof_recorded_error (env : Env) (hash : Option Hash) (b p : Block)
    (hb : env.blocks (unwrap_or_best env hash) = .ok (some b))
    (hp : env.blocks b.header.parent_hash = .ok (some p))
    (hx : env.execute_block b.header.parent_hash b = .ok ())
    (hw : env.extract_proof b.header.parent_hash b = none) :
    block_stats env hash = .error (RpcError.Other "No Proof was recorded") := by
  simp [block_stats, hb, hp, hx, hw]

/-- Witness for C3 at the concrete environment without proof recording. -/
theorem c3_witness :
    block_stats env_noproof (some 101) = .error (RpcError.Other "No Proof was recorded") :=
  c3_no_proof_recorded_error env_noproof (some 101) b1 p1 rfl rfl rfl rfl

/-- C4: a successful `block_stats` reports exactly the block's extrinsic
count (including zero) and its canonical serialized size, the `usize`
quantities being below 2^64. -/
theorem c4_block_len_and_extrinsic_count (env : Env) (hash : Option Hash)
    (b p : Block) (s : BlockStats)
    (hb : env.blocks (unwrap_or_best env hash) = .ok (some b))
    (hp : env.blocks b.header.parent_hash = .ok (some p))
    (hk : b.extrinsics.length < 2 ^ 64)
    (hl : b.encoded_size < 2 ^ 64)
    (hs : block_stats env hash = .ok (some s)) :
    s.block_num_extrinsics = b.extrinsics.length ∧ s.block_len = b.encoded_size := by
  obtain ⟨w, c, z, hw, hc, hz, rfl⟩ := block_stats_success_shape hb hp hs
  refine ⟨?_, ?_⟩ <;> simp only [as_u64] <;> omega

/-- Witness for C4 at the concrete environment: three extrinsics, 71
encoded bytes. -/
theorem c4_witness :
    stats0.block_num_extrinsics = b1.extrinsics.length ∧ stats0.block_len = b1.encoded_size :=
  c4_block_len_and_extrinsic_count env0 (some 101) b1 p1 stats0 rfl rfl
    (by decide) (by decide) rfl

/-- C5: with the compactor of the §4.2 contract, a successful record always
has `witness_compact_len ≤ witness_len` — compaction never grows the
proof (witness size below the `usize`-exact 2^64 bound). -/
theorem c5_compact_never_larger (env : Env) (hash : Option Hash)
    (b p : Block) (w : Witness) (s : BlockStats)
    (hcompact : env.into_compact_proof = spec_compact)
    (hb : env.blocks (unwrap_or_best env hash) = .ok (some b))
    (hp : env.blocks b.header.parent_hash = .ok (some p))
    (hw : env.extract_proof b.header.parent_hash b = some w)
    (hsz : w.encoded_size < 2 ^ 64)
    (hs : block_stats env hash = .ok (some s)) :
    s.witness_compact_len ≤ s.witness_len := by
  obtain ⟨w', c, z, hw', hc, hz, rfl⟩ := block_stats_success_shape hb hp hs
  rw [hw] at hw'
  cases Option.some.inj hw'
  have hle : (CompactProof.encode c).length ≤ w.encoded_size := by
    apply spec_compact_le
    rw [← hcompact]
    exact hc
  show as_u64 (CompactProof.encode c).length ≤ as_u64 w.encoded_size
  simp only [as_u64]
  omega

/-- Witness for C5 at the concrete environment: 7 ≤ 11. -/
theorem c5_witness : stats0.witness_compact_len ≤ stats0.witness_len :=
  c5_compact_never_larger env0 (some 101) b1 p1 w0 stats0 rfl rfl rfl rfl
    (by decide) rfl

/-- C6: two calls against the same unchanged environment yield records with
all five fields equal — the pipeline is a pure function of the ledger
state. -/
theorem c6_repeat_identical (env : Env) (hash : Option Hash) (s₁ s₂ : BlockStats)
    (h1 : block_stats env hash = .ok (some s₁))
    (h2 : block_stats env hash = .ok (some s₂)) :
    s₁.witness_len = s₂.witness_len ∧ s₁.witness_compact_len = s₂.witness_compact_len ∧
      s₁.witness_compressed_len = s₂.witness_compressed_len ∧
      s₁.block_len = s₂.block_len ∧ s₁.block_num_extrinsics = s₂.block_num_extrinsics := by
  have h := h1.symm.trans h2
  simp only [Except.ok.injEq, Option.some.injEq] at h
  subst h
  exact ⟨rfl, rfl, rfl, rfl, rfl⟩

/-- Witness for C6 at the concrete environment. -/
theorem c6_witness :
    stats0.witness_len = stats0.witness_len ∧
      stats0.witness_compact_len = stats0.witness_compact_len ∧
      stats0.witness_compressed_len = stats0.witness_compressed_len ∧
      stats0.block_len = stats0.block_len ∧
      stats0.block_num_extrinsics = stats0.block_num_extrinsics :=
  c6_repeat_identical env0 (some 101) stats0 stats0 rfl rfl

/-- C7: the byte compressor satisfies the round-trip law on every byte
sequence, the empty one included: decompressing the compressor's output
recovers the input. -/
theorem c7_compress_round_trip (x : Bytes) :
    ∃ y, spec_compress x = .ok y ∧ spec_decompress y = .ok x :=
  ⟨flattenPairs (rlePairs x), rfl, by
    simp [spec_decompress, readPairs_flattenPairs, expandPairs_rlePairs]⟩

/-- C8: every failure other than not-found aborts the computation and is
surfaced as the error wrapping the underlying diagnostic — a failing block
lookup, parent lookup, execution, missing proof, compaction or
compression each yields `Err`, never a partial record and never `None`. -/
theorem c8_error_propagation (env : Env) (hash : Option Hash) :
    (∀ e, env.blocks (unwrap_or_best env hash) = .error e →
        block_stats env hash = .error (client_err e)) ∧
    ∀ b, env.blocks (unwrap_or_best env hash) = .ok (some b) →
      (∀ e, env.blocks b.header.parent_hash = .error e →
          block_stats env hash = .error (client_err e)) ∧
      ∀ p, env.blocks b.header.parent_hash = .ok (some p) →
        (∀ e, env.execute_block b.header.parent_hash b = .error e →
            block_stats env hash = .error (RpcError.Client e)) ∧
        (env.execute_block b.header.parent_hash b = .ok () →
          (env.extract_proof b.header.parent_hash b = none →
              block_stats env hash = .error (RpcError.Other "No Proof was recorded")) ∧
          ∀ w, env.extract_proof b.header.parent_hash b = some w →
            (∀ e, env.into_compact_proof w p.header.state_root = .error e →
                block_stats env hash = .error (RpcError.Client e)) ∧
            ∀ c, env.into_compact_proof w p.header.state_root = .ok c →
              ∀ e, env.compress (CompactProof.encode c) = .error e →
                block_stats env hash = .error (RpcError.Client e)) := by
  refine ⟨fun e he => ?_, fun b hb => ⟨fun e he => ?_, fun p hp =>
    ⟨fun e he => ?_, fun hx => ⟨fun hn => ?_, fun w hw =>
      ⟨fun e he => ?_, fun c hc e he => ?_⟩⟩⟩⟩⟩
  · simp [block_stats, he]
  · simp [block_stats, hb, he]
  · simp [block_stats, hb, hp, he]
  · simp [block_stats, hb, hp, hx, hn]
  · simp [block_stats, hb, hp, hx, hw, he]
  · simp [block_stats, hb, hp, hx, hw, hc, he]

/-- Witness for C8: a failing compressor surfaces its diagnostic. -/
theorem c8_witness :
    block_stats env_zfail (some 101) = .error (RpcError.Client "zstd failure") :=
  (((((c8_error_propagation env_zfail (some 101)).2 b1 rfl).2 p1 rfl).2 rfl).2 w0 rfl).2
    c0 rfl "zstd failure" rfl

/-- C9: when `block_stats` returns `Ok(None)`, the outcome depends only on
the block lookups — any environment with the same ledger but arbitrary
executor, proof recorder, compactor and compressor returns the same
`Ok(None)`, so none of those stages is consulted on the not-found path. -/
theorem c9_notfound_no_pipeline_dependence (env₁ env₂ : Env) (hash : Option Hash)
    (hbl : env₁.blocks = env₂.blocks) (hbest : env₁.best = env₂.best)
    (h : block_stats env₁ hash = .ok none) :
    block_stats env₂ hash = .ok none := by
  have hres : unwrap_or_best env₁ hash = unwrap_or_best env₂ hash := by
    simp [unwrap_or_best, hbest]
  rcases (block_stats_ok_none_iff env₁ hash).mp h with h0 | ⟨b, h1, h2⟩
  · refine block_stats_block_missing ?_
    rw [← hbl, ← hres]
    exact h0
  · refine block_stats_parent_missing (b := b) ?_ ?_
    · rw [← hbl, ← hres]
      exact h1
    · rw [← hbl]
      exact h2

/-- Witness for C9: the ledger of `env0` with a fully failing pipeline
still returns `Ok(None)` for an absent hash. -/
theorem c9_witness : block_stats env_alt (some 55) = .ok none :=
  c9_notfound_no_pipeline_dependence env0 env_alt (some 55) rfl rfl rfl

/-- C10: all five fields are `usize` values cast with `as u64`; whenever
the underlying sizes and count are below 2^64 (every ≤ 64-bit `usize`
target), the reported fields equal the true sizes exactly. -/
theorem c10_casts_exact (env : Env) (hash : Option Hash) (b p : Block) (w : Witness)
    (c : CompactProof) (z : Bytes) (s : BlockStats)
    (hb : env.blocks (unwrap_or_best env hash) = .ok (some b))
    (hp : env.blocks b.header.parent_hash = .ok (some p))
    (hw : env.extract_proof b.header.parent_hash b = some w)
    (hc : env.into_compact_proof w p.header.state_root = .ok c)
    (hz : env.compress (CompactProof.encode c) = .ok z)
    (h1 : w.encoded_size < 2 ^ 64)
    (h2 : (CompactProof.encode c).length < 2 ^ 64)
    (h3 : z.length < 2 ^ 64)
    (h4 : b.encoded_size < 2 ^ 64)
    (h5 : b.extrinsics.length < 2 ^ 64)
    (hs : block_stats env hash = .ok (some s)) :
    s.witness_len = w.encoded_size ∧
      s.witness_compact_len = (CompactProof.encode c).length ∧
      s.witness_compressed_len = z.length ∧
      s.block_len = b.encoded_size ∧
      s.block_num_extrinsics = b.extrinsics.length := by
  obtain ⟨w', c', z', hw', hc', hz', rfl⟩ := block_stats_success_shape hb hp hs
  rw [hw] at hw'
  cases Option.some.inj hw'
  rw [hc] at hc'
  cases Except.ok.inj hc'
  rw [hz] at hz'
  cases Except.ok.inj hz'
  refine ⟨?_, ?_, ?_, ?_, ?_⟩ <;> simp only [as_u64] <;> omega

/-- Witness for C10 at the concrete environment: the five reported fields
equal the true sizes. -/
theorem c10_witness :
    stats0.witness_len = w0.encoded_size ∧
      stats0.witness_compact_len = (CompactProof.encode c0).length ∧
      stats0.witness_compressed_len = z0.length ∧
      stats0.block_len = b1.encoded_size ∧
      stats0.block_num_extrinsics = b1.extrinsics.length :=
  c10_casts_exact env0 (some 101) b1 p1 w0 c0 z0 stats0 rfl rfl rfl rfl rfl
    (by decide) (by decide) (by decide) (by decide) (by decide) rfl
